import Mathlib

/-!
Verification of the core of an NES emulator written in Rust
(rustness_monster): the 6502 CPU arithmetic and interrupt flag
handling, bus RAM mirroring, the PPU data port, VBlank timing and
address latch, and the iNES ROM loader.

Machine integers are modelled as Nat with explicit bounds; eight bit
wrap-around is written as % 256 and sixteen bit wrap-around as % 65536.
Fallible code (Rust panics, nom parse failures) is modelled with Option
or Except.
-/

/-! ## CPU status flags (src/cpu/cpu.rs, bitflags CpuFlags) -/

def CpuFlags.CARRY : Nat := 0b00000001
def CpuFlags.ZERO : Nat := 0b00000010
def CpuFlags.INTERRUPT_DISABLE : Nat := 0b00000100
def CpuFlags.DECIMAL_MODE : Nat := 0b00001000
def CpuFlags.BREAK : Nat := 0b00010000
def CpuFlags.BREAK2 : Nat := 0b00100000
def CpuFlags.OVERFLOW : Nat := 0b01000000
def CpuFlags.NEGATIV : Nat := 0b10000000

/-- bitflags insert: set the mask bits. -/
def flagInsert (f m : Nat) : Nat := f ||| m

/-- bitflags remove: clear the mask bits (bits &= !mask on a u8). -/
def flagRemove (f m : Nat) : Nat := f &&& (0xFF ^^^ m)

/-- bitflags contains: (bits & mask) == mask. -/
def flagContains (f m : Nat) : Bool := (f &&& m) == m

/-- bitflags set: insert when the flag is true, remove otherwise. -/
def flagSet (f m : Nat) (b : Bool) : Nat := if b then flagInsert f m else flagRemove f m

/-! ## CPU accumulator and flags state, ADC / SBC
(src/cpu/cpu.rs, CPU::add_to_register_a, CPU::sub_from_register_a,
CPU::set_register_a, CPU::udpate_cpu_flags, CPU::update_negative_flag;
the source misspells the latter two and the model keeps the names). -/

structure CpuA where
  register_a : Nat
  flags : Nat

def update_negative_flag (f last_operation : Nat) : Nat :=
  if last_operation >>> 7 = 1 then flagInsert f CpuFlags.NEGATIV
  else flagRemove f CpuFlags.NEGATIV

def udpate_cpu_flags (f last_operation : Nat) : Nat :=
  update_negative_flag
    (if last_operation = 0 then flagInsert f CpuFlags.ZERO
     else flagRemove f CpuFlags.ZERO)
    last_operation

def set_register_a (s : CpuA) (data : Nat) : CpuA :=
  { register_a := data, flags := udpate_cpu_flags s.flags data }

/-- The carry-in term of add_to_register_a: 1 when the CARRY flag is
contained, else 0. -/
def carryIn (s : CpuA) : Nat :=
  if flagContains s.flags CpuFlags.CARRY then 1 else 0

/-- CPU::add_to_register_a. The u16 sum a + data + carry never exceeds
511, so the u16 addition is plain Nat addition; sum as u8 is % 256. -/
def add_to_register_a (s : CpuA) (data : Nat) : CpuA :=
  let sum := s.register_a + data + carryIn s
  let f1 := if 0xff < sum then flagInsert s.flags CpuFlags.CARRY
            else flagRemove s.flags CpuFlags.CARRY
  let result := sum % 256
  let f2 := if (data ^^^ result) &&& (result ^^^ s.register_a) &&& 0x80 ≠ 0
            then flagInsert f1 CpuFlags.OVERFLOW
            else flagRemove f1 CpuFlags.OVERFLOW
  set_register_a { register_a := s.register_a, flags := f2 } result

/-- Two's-complement reading of a byte (data as i8). -/
def toI8 (d : Nat) : Int := if d < 128 then (d : Int) else (d : Int) - 256

/-- Wrap an integer into the i8 range, as the wrapping_* i8 ops do. -/
def wrapI8 (x : Int) : Int := (x + 128) % 256 - 128

/-- An i8 value converted to u8 (as u8): reduce mod 256. -/
def toU8 (x : Int) : Nat := (x % 256).toNat

/-- The operand CPU::sub_from_register_a feeds to add_to_register_a:
((data as i8).wrapping_neg().wrapping_sub(1)) as u8. -/
def sbc_operand (data : Nat) : Nat := toU8 (wrapI8 (wrapI8 (-(toI8 data)) - 1))

def sub_from_register_a (s : CpuA) (data : Nat) : CpuA :=
  add_to_register_a s (sbc_operand data)

/-! ## CPU interrupt sequencer flag byte (src/cpu/cpu.rs, CPU::interrupt
and mod interrupt). Only the status byte pushed on the stack is modelled
here; the records carry the vector address, the b flag mask and the
cycle count of the source constants. -/

structure Interrupt where
  vector_addr : Nat
  b_flag_mask : Nat
  cpu_cycles : Nat

def Interrupt.BRK : Interrupt :=
  { vector_addr := 0xfffe, b_flag_mask := 0b00110000, cpu_cycles := 1 }

def Interrupt.IRQ : Interrupt :=
  { vector_addr := 0xfffe, b_flag_mask := 0b00100000, cpu_cycles := 2 }

def Interrupt.NMI : Interrupt :=
  { vector_addr := 0xfffA, b_flag_mask := 0b00100000, cpu_cycles := 2 }

/-- The status byte CPU::interrupt pushes: a clone of the flags with
BREAK set to (b_flag_mask & 0b010000 == 1) and BREAK2 set to
(b_flag_mask & 0b100000 == 1), exactly as the source compares. -/
def interruptPushedStatus (flags : Nat) (i : Interrupt) : Nat :=
  let f1 := flagSet flags CpuFlags.BREAK (i.b_flag_mask &&& 0b010000 == 1)
  flagSet f1 CpuFlags.BREAK2 (i.b_flag_mask &&& 0b100000 == 1)

/-- The status byte the PHP handler pushes: flags with BREAK and BREAK2
inserted (src/cpu/cpu.rs, opcode 0x08). -/
def phpPushedStatus (flags : Nat) : Nat :=
  flagInsert (flagInsert flags CpuFlags.BREAK) CpuFlags.BREAK2

/-! ## Signed overflow, spec side -/

/-- Signed overflow of the two's-complement addition a + d + c, stated
from the spec: the mathematical signed sum leaves the i8 range. -/
def specSignedOverflow (a d c : Nat) : Prop :=
  toI8 a + toI8 d + (c : Int) < -128 ∨ 127 < toI8 a + toI8 d + (c : Int)

/-! ## Lemmas about single flag bits -/

theorem flagContains_two_pow (f j : Nat) : flagContains f (2 ^ j) = f.testBit j := by
  unfold flagContains
  rw [Nat.and_two_pow]
  have hp := Nat.two_pow_pos j
  cases h : f.testBit j <;> simp <;> omega

theorem CARRY_eq : CpuFlags.CARRY = 2 ^ 0 := rfl

theorem ZERO_eq : CpuFlags.ZERO = 2 ^ 1 := rfl

theorem BREAK_eq : CpuFlags.BREAK = 2 ^ 4 := rfl

theorem BREAK2_eq : CpuFlags.BREAK2 = 2 ^ 5 := rfl

theorem OVERFLOW_eq : CpuFlags.OVERFLOW = 2 ^ 6 := rfl

theorem NEGATIV_eq : CpuFlags.NEGATIV = 2 ^ 7 := rfl

theorem testBit_flagInsert (f m k : Nat) :
    (flagInsert f m).testBit k = (f.testBit k || m.testBit k) :=
  Nat.testBit_lor f m k

theorem testBit_flagRemove (f m k : Nat) (hk : k < 8) :
    (flagRemove f m).testBit k = (f.testBit k && !(m.testBit k)) := by
  unfold flagRemove
  rw [Nat.testBit_land, Nat.testBit_xor,
    show (0xFF : Nat) = 2 ^ 8 - 1 by norm_num, Nat.testBit_two_pow_sub_one]
  simp [hk]

/-- For a byte, bit 7 tests the 128 threshold. -/
theorem testBit7_eq_decide (n : Nat) (h : n < 256) :
    n.testBit 7 = decide (128 ≤ n) := by
  rw [Nat.testBit_to_div_mod]
  rw [decide_eq_decide]
  omega

/-- The overflow-bit expression of add_to_register_a detects exactly
two's-complement signed overflow of the addition. -/
theorem vflag_characterization (a d c : Nat) (ha : a < 256) (hd : d < 256) (hc : c ≤ 1) :
    ((d ^^^ (a + d + c) % 256) &&& ((a + d + c) % 256 ^^^ a) &&& 0x80 ≠ 0) ↔
      specSignedOverflow a d c := by
  have hr : (a + d + c) % 256 < 256 := Nat.mod_lt _ (by omega)
  rw [show (0x80 : Nat) = 2 ^ 7 by norm_num, Nat.and_two_pow]
  rw [Nat.testBit_land, Nat.testBit_xor, Nat.testBit_xor]
  rw [testBit7_eq_decide a ha, testBit7_eq_decide d hd, testBit7_eq_decide _ hr]
  unfold specSignedOverflow toI8
  have h7 := Nat.two_pow_pos 7
  by_cases h1 : 128 ≤ a <;> by_cases h2 : 128 ≤ d <;>
    by_cases h3 : 128 ≤ (a + d + c) % 256 <;>
    simp [h1, h2, h3] <;> split_ifs <;> omega

/-! ## Bits of the flag byte produced by add_to_register_a -/

theorem udpate_cpu_flags_testBit0 (f r : Nat) :
    (udpate_cpu_flags f r).testBit 0 = f.testBit 0 := by
  unfold udpate_cpu_flags update_negative_flag flagInsert flagRemove
  split_ifs <;>
    simp only [Nat.testBit_lor, Nat.testBit_land, Nat.testBit_xor] <;>
    simp [Nat.testBit_to_div_mod, CpuFlags.ZERO, CpuFlags.NEGATIV]

theorem udpate_cpu_flags_testBit6 (f r : Nat) :
    (udpate_cpu_flags f r).testBit 6 = f.testBit 6 := by
  unfold udpate_cpu_flags update_negative_flag flagInsert flagRemove
  split_ifs <;>
    simp only [Nat.testBit_lor, Nat.testBit_land, Nat.testBit_xor] <;>
    simp [Nat.testBit_to_div_mod, CpuFlags.ZERO, CpuFlags.NEGATIV]

theorem udpate_cpu_flags_testBit1 (f r : Nat) :
    (udpate_cpu_flags f r).testBit 1 = decide (r = 0) := by
  unfold udpate_cpu_flags update_negative_flag flagInsert flagRemove
  by_cases hr : r = 0 <;>
    [rw [if_pos hr]; rw [if_neg hr]] <;>
    split_ifs <;>
    simp only [Nat.testBit_lor, Nat.testBit_land, Nat.testBit_xor] <;>
    simp [Nat.testBit_to_div_mod, CpuFlags.ZERO, CpuFlags.NEGATIV, hr]

theorem udpate_cpu_flags_testBit7 (f r : Nat) :
    (udpate_cpu_flags f r).testBit 7 = decide (r >>> 7 = 1) := by
  unfold udpate_cpu_flags update_negative_flag flagInsert flagRemove
  by_cases hr : r >>> 7 = 1 <;>
    split_ifs <;>
    simp only [Nat.testBit_lor, Nat.testBit_land, Nat.testBit_xor] <;>
    simp [Nat.testBit_to_div_mod, CpuFlags.ZERO, CpuFlags.NEGATIV, hr]

/-- Functional description of add_to_register_a: register A and the
four affected flag bits, in terms of the code-side conditions. -/
theorem add_to_register_a_bits (s : CpuA) (d : Nat) :
    (add_to_register_a s d).register_a = (s.register_a + d + carryIn s) % 256 ∧
    (add_to_register_a s d).flags.testBit 0 =
      decide (0xff < s.register_a + d + carryIn s) ∧
    (add_to_register_a s d).flags.testBit 6 =
      decide ((d ^^^ (s.register_a + d + carryIn s) % 256) &&&
        ((s.register_a + d + carryIn s) % 256 ^^^ s.register_a) &&& 0x80 ≠ 0) ∧
    (add_to_register_a s d).flags.testBit 1 =
      decide ((s.register_a + d + carryIn s) % 256 = 0) ∧
    (add_to_register_a s d).flags.testBit 7 =
      decide (((s.register_a + d + carryIn s) % 256) >>> 7 = 1) := by
  unfold add_to_register_a set_register_a
  refine ⟨rfl, ?_, ?_, ?_, ?_⟩ <;>
    simp only [udpate_cpu_flags_testBit0, udpate_cpu_flags_testBit6,
      udpate_cpu_flags_testBit1, udpate_cpu_flags_testBit7]
  · unfold flagInsert flagRemove
    by_cases hc : 0xff < s.register_a + d + carryIn s <;>
      split_ifs <;>
      simp only [Nat.testBit_lor, Nat.testBit_land, Nat.testBit_xor] <;>
      simp [Nat.testBit_to_div_mod, CpuFlags.CARRY, CpuFlags.OVERFLOW, hc]
  · unfold flagInsert flagRemove
    by_cases hv : (d ^^^ (s.register_a + d + carryIn s) % 256) &&&
        ((s.register_a + d + carryIn s) % 256 ^^^ s.register_a) &&& 0x80 ≠ 0 <;>
      split_ifs <;>
      simp only [Nat.testBit_lor, Nat.testBit_land, Nat.testBit_xor] <;>
      simp [Nat.testBit_to_div_mod, CpuFlags.CARRY, CpuFlags.OVERFLOW, hv]

instance (a d c : Nat) : Decidable (specSignedOverflow a d c) := by
  unfold specSignedOverflow
  infer_instance

/-- C5: for every accumulator value A, operand m and incoming carry c,
ADC (add_to_register_a) sets C iff the unsigned 16-bit sum A + m + c
exceeds 0xFF, sets V iff the signed two's-complement addition overflows,
and stores the low 8 bits of the sum in A with Z and N updated from the
result. -/
theorem c5_adc_flags (s : CpuA) (d : Nat)
    (ha : s.register_a < 256) (hd : d < 256) :
    flagContains (add_to_register_a s d).flags CpuFlags.CARRY =
      decide (0xff < s.register_a + d + carryIn s) ∧
    flagContains (add_to_register_a s d).flags CpuFlags.OVERFLOW =
      decide (specSignedOverflow s.register_a d (carryIn s)) ∧
    (add_to_register_a s d).register_a = (s.register_a + d + carryIn s) % 256 ∧
    flagContains (add_to_register_a s d).flags CpuFlags.ZERO =
      decide ((s.register_a + d + carryIn s) % 256 = 0) ∧
    flagContains (add_to_register_a s d).flags CpuFlags.NEGATIV =
      decide (128 ≤ (s.register_a + d + carryIn s) % 256) := by
  obtain ⟨hA, h0, h6, h1, h7⟩ := add_to_register_a_bits s d
  have hc : carryIn s ≤ 1 := by unfold carryIn; split_ifs <;> omega
  have hrlt : (s.register_a + d + carryIn s) % 256 < 256 := Nat.mod_lt _ (by omega)
  refine ⟨?_, ?_, hA, ?_, ?_⟩
  · rw [CARRY_eq, flagContains_two_pow, h0]
  · rw [OVERFLOW_eq, flagContains_two_pow, h6, decide_eq_decide]
    exact vflag_characterization _ _ _ ha hd hc
  · rw [ZERO_eq, flagContains_two_pow, h1]
  · rw [NEGATIV_eq, flagContains_two_pow, h7, decide_eq_decide,
      Nat.shiftRight_eq_div_pow, show (2 : Nat) ^ 7 = 128 by norm_num]
    omega

/-- Witness for C5 at A = 0x50, m = 0x50, carry clear: no carry out,
signed overflow, result 0xA0 negative and nonzero. -/
theorem c5_adc_flags_witness :
    (0x50 : Nat) < 256 ∧
    flagContains (add_to_register_a ⟨0x50, 0⟩ 0x50).flags CpuFlags.CARRY = false ∧
    flagContains (add_to_register_a ⟨0x50, 0⟩ 0x50).flags CpuFlags.OVERFLOW = true ∧
    (add_to_register_a ⟨0x50, 0⟩ 0x50).register_a = 0xA0 ∧
    flagContains (add_to_register_a ⟨0x50, 0⟩ 0x50).flags CpuFlags.NEGATIV = true := by
  have h := c5_adc_flags ⟨0x50, 0⟩ 0x50 (by decide) (by decide)
  obtain ⟨hC, hV, hA, hZ, hN⟩ := h
  refine ⟨by decide, ?_, ?_, ?_, ?_⟩
  · rw [hC]; decide
  · rw [hV]; decide
  · rw [hA]; decide
  · rw [hN]; decide

set_option maxRecDepth 4000 in
theorem sbc_operand_eq : ∀ d < 256, sbc_operand d = d ^^^ 0xFF := by decide

/-- C9: for every CPU state and operand byte m, SBC
(sub_from_register_a m) yields exactly the same resulting state as ADC
(add_to_register_a) applied to the bitwise complement of m. -/
theorem c9_sbc_is_adc_of_complement (s : CpuA) (d : Nat) (hd : d < 256) :
    sub_from_register_a s d = add_to_register_a s (d ^^^ 0xFF) := by
  unfold sub_from_register_a
  rw [sbc_operand_eq d hd]

/-- Witness for C9 at A = 0x10, flags 0, m = 2. -/
theorem c9_sbc_is_adc_of_complement_witness :
    (2 : Nat) < 256 ∧
    sub_from_register_a ⟨0x10, 0⟩ 2 = add_to_register_a ⟨0x10, 0⟩ (2 ^^^ 0xFF) :=
  ⟨by decide, c9_sbc_is_adc_of_complement ⟨0x10, 0⟩ 2 (by decide)⟩

/-- C1 (code bug): the status byte CPU::interrupt pushes always has
bits 4 and 5 cleared, because b_flag_mask & 0b010000 == 1 and
b_flag_mask & 0b100000 == 1 are never true (the masked value is 0 or a
power of two, never 1). With P = 0x24 the NMI sequencer pushes 0x04
with bit 5 clear, and the BRK sequencer also pushes 0x04 with bits 4
and 5 clear, where the claim requires bit 5 set for NMI and both bits
set for BRK. The PHP handler, by contrast, pushes both bits set. -/
theorem c1_interrupt_pushes_b_bits_cleared :
    interruptPushedStatus 0x24 Interrupt.NMI = 0x04 ∧
    (interruptPushedStatus 0x24 Interrupt.NMI).testBit 5 = false ∧
    interruptPushedStatus 0x24 Interrupt.BRK = 0x04 ∧
    (interruptPushedStatus 0x24 Interrupt.BRK).testBit 4 = false ∧
    (interruptPushedStatus 0x24 Interrupt.BRK).testBit 5 = false ∧
    phpPushedStatus 0x24 = 0x34 := by
  decide

/-! ## PPU (src/ppu/ppu.rs) -/

/-- A 16-bit value split as high byte shifted or-ed with a low byte is
the byte-weighted sum. -/
theorem shiftLeft8_or_eq (x y : Nat) (h : y < 256) :
    (x <<< 8) ||| y = x * 256 + y := by
  apply Nat.eq_of_testBit_eq
  intro k
  rw [Nat.testBit_lor, Nat.testBit_shiftLeft]
  rcases Nat.lt_or_ge k 8 with hk | hk
  · have h1 : decide (8 ≤ k) = false := by simp; omega
    rw [h1]
    simp only [Bool.false_and, Bool.false_or]
    rw [Nat.testBit_to_div_mod, Nat.testBit_to_div_mod, decide_eq_decide]
    have e256 : (256 : Nat) = 2 ^ k * 2 ^ (8 - k) := by
      rw [← pow_add, show k + (8 - k) = 8 by omega]
      norm_num
    have hrw : x * 256 + y = y + 2 ^ k * (x * 2 ^ (8 - k)) := by
      rw [e256]; ring
    have e3 : x * 2 ^ (8 - k) = 2 * (x * 2 ^ (7 - k)) := by
      rw [show (8 - k) = (7 - k) + 1 by omega, pow_succ]
      ring
    rw [hrw, Nat.add_mul_div_left _ _ (Nat.two_pow_pos k), e3]
    omega
  · have hy : y.testBit k = false := Nat.testBit_eq_false_of_lt
      (lt_of_lt_of_le h (Nat.pow_le_pow_right (show 0 < 2 by norm_num) hk))
    have h1 : decide (8 ≤ k) = true := by simp [hk]
    rw [hy, h1]
    simp only [Bool.true_and, Bool.or_false]
    rw [Nat.testBit_to_div_mod, Nat.testBit_to_div_mod, decide_eq_decide]
    have e1 : (2 : Nat) ^ k = 256 * 2 ^ (k - 8) := by
      rw [show (256 : Nat) = 2 ^ 8 by norm_num, ← pow_add,
        show 8 + (k - 8) = k by omega]
    have e2 : (x * 256 + y) / 2 ^ k = x / 2 ^ (k - 8) := by
      rw [e1, ← Nat.div_div_eq_div_mul, Nat.mul_comm x 256,
        Nat.mul_add_div (by norm_num), Nat.div_eq_of_lt h, Nat.add_zero]
    rw [e2]

/-- Modelled from the spec: the Mirroring enum lives in the missing
rom/ines module; the spec gives mirroring ∈ Horizontal, Vertical,
FourScreen, and src/ppu/ppu.rs matches on the first two variants. -/
inductive Mirroring
  | VERTICAL
  | HORIZONTAL
  | FOUR_SCREEN
deriving DecidableEq

/-- The $2006 address latch (struct Addr in src/ppu/ppu.rs): value.0 is
the high byte, value.1 the low byte, hi_ptr the shared write toggle. -/
structure Addr where
  hi : Nat
  lo : Nat
  hi_ptr : Bool

def Addr.new : Addr := { hi := 0, lo := 0, hi_ptr := true }

def Addr.set (a : Addr) (data : Nat) : Addr :=
  { a with hi := data >>> 8, lo := data &&& 0xff }

def Addr.udpate (a : Addr) (data : Nat) : Addr :=
  if a.hi_ptr then { a with hi := data, hi_ptr := false }
  else { a with lo := data, hi_ptr := true }

def Addr.increment (a : Addr) (inc : Nat) : Addr :=
  let newLo := (a.lo + inc) % 256
  { a with lo := newLo, hi := if newLo < a.lo then (a.hi + 1) % 256 else a.hi }

def Addr.reset_latch (a : Addr) : Addr := { a with hi_ptr := true }

def Addr.read (a : Addr) : Nat := (a.hi <<< 8) ||| a.lo

/-- Modelled from the spec: src/ppu/registers/control.rs is not among
the sources. Per the spec, CTRL bit 2 selects the VRAM address
increment (32 when set, else 1) and CTRL bit 7 enables the VBlank NMI;
the register starts zeroed. -/
structure ControlRegister where
  bits : Nat

def ControlRegister.new : ControlRegister := { bits := 0 }

def ControlRegister.vram_addr_increment (c : ControlRegister) : Nat :=
  if c.bits.testBit 2 then 32 else 1

def ControlRegister.generate_vblank_nmi (c : ControlRegister) : Bool :=
  c.bits.testBit 7

/-- Modelled from the spec: src/ppu/registers/status.rs is not among
the sources. STATUS has bit 7 VBlank, bit 6 sprite-0 hit, bit 5 sprite
overflow; it starts zeroed. -/
structure StatusRegister where
  bits : Nat

def StatusRegister.new : StatusRegister := { bits := 0 }

def StatusRegister.set_vblank_status (s : StatusRegister) (b : Bool) : StatusRegister :=
  { bits := flagSet s.bits 0b10000000 b }

def StatusRegister.set_sprite_zero_hit (s : StatusRegister) (b : Bool) : StatusRegister :=
  { bits := flagSet s.bits 0b01000000 b }

def StatusRegister.reset_vblank_status (s : StatusRegister) : StatusRegister :=
  { bits := flagRemove s.bits 0b10000000 }

def StatusRegister.is_in_vblank (s : StatusRegister) : Bool := s.bits.testBit 7

def StatusRegister.snapshot (s : StatusRegister) : Nat := s.bits

/-- Modelled from the spec: src/ppu/registers/mask.rs is not among the
sources. MASK bit 4 is show-sprites; it starts zeroed. -/
structure MaskRegister where
  bits : Nat

def MaskRegister.new : MaskRegister := { bits := 0 }

def MaskRegister.show_sprites (m : MaskRegister) : Bool := m.bits.testBit 4

/-- The $2005 scroll latch pair (struct Scroll in src/ppu/ppu.rs). -/
structure Scroll where
  scroll_x : Nat
  scroll_y : Nat
  latch : Bool

def Scroll.new : Scroll := { scroll_x := 0, scroll_y := 0, latch := false }

/-- struct NesPPU. The byte arrays vram (2 KiB), oam_data (256) and
palette_table (32) are modelled as total maps indexed by Nat; chr_rom
is a Vec and keeps its out-of-bounds panic via List.get?. -/
structure NesPPU where
  chr_rom : List Nat
  mirroring : Mirroring
  ctrl : ControlRegister
  mask : MaskRegister
  status : StatusRegister
  oam_addr : Nat
  scroll : Scroll
  addr : Addr
  vram : Nat → Nat
  oam_data : Nat → Nat
  line : Nat
  cycles : Nat
  nmi_interrupt : Option Nat
  palette_table : Nat → Nat
  read_data_buf : Nat

/-- NesPPU::new: note that the source assigns Mirroring::HORIZONTAL and
comments out the mirroring parameter, which is otherwise unused. -/
def NesPPU.new (chr_rom : List Nat) (mirroring : Mirroring) : NesPPU :=
  { chr_rom := chr_rom
    mirroring := Mirroring.HORIZONTAL
    ctrl := ControlRegister.new
    mask := MaskRegister.new
    status := StatusRegister.new
    oam_addr := 0
    scroll := Scroll.new
    addr := Addr.new
    vram := fun _ => 0
    oam_data := fun _ => 0
    line := 0
    cycles := 0
    nmi_interrupt := none
    palette_table := fun _ => 0
    read_data_buf := 0 }

/-- NesPPU::mirror_vram_addr. The Rust u16 subtraction
mirrored_vram - 0x2000 is Nat truncated subtraction here; all uses in
the modelled operations have addr ≥ 0x2000, where the two agree. The
(mirroring, name_table) match is rendered as a match on mirroring with
an if chain on the name table, arm for arm. -/
def NesPPU.mirror_vram_addr (p : NesPPU) (addr : Nat) : Nat :=
  let mirrored_vram := addr &&& 0b10111111111111
  let vram_index := mirrored_vram - 0x2000
  let name_table := vram_index / 0x400
  match p.mirroring with
  | Mirroring.VERTICAL =>
      if name_table = 2 ∨ name_table = 3 then vram_index - 0x800 else vram_index
  | Mirroring.HORIZONTAL =>
      if name_table = 2 then vram_index - 0x400
      else if name_table = 1 then vram_index - 0x400
      else if name_table = 3 then vram_index - 0x800
      else vram_index
  | Mirroring.FOUR_SCREEN => vram_index

def NesPPU.increment_vram_addr (p : NesPPU) : NesPPU :=
  let a1 := p.addr.increment p.ctrl.vram_addr_increment
  if 0x3fff < a1.read then { p with addr := a1.set (a1.read &&& 0b11111111111111) }
  else { p with addr := a1 }

def NesPPU.write_to_ppu_addr (p : NesPPU) (value : Nat) : NesPPU :=
  let a1 := p.addr.udpate value
  if 0x3fff < a1.read then { p with addr := a1.set (a1.read &&& 0b11111111111111) }
  else { p with addr := a1 }

/-- NesPPU::write_to_data: the chr-rom arm only prints and leaves the
state unchanged, the 0x3000-0x3eff arm and addresses above 0x3fff
panic (unimplemented / unreachable), modelled as none; the palette arm
indexes the 32-byte palette_table array at addr - 0x3f00, so any addr
at 0x3f20 or above panics out of bounds (none); every non-panicking
arm ends with increment_vram_addr. -/
def NesPPU.write_to_data (p : NesPPU) (value : Nat) : Option NesPPU :=
  let addr := p.addr.read
  let p1 : Option NesPPU :=
    if addr ≤ 0x1fff then some p
    else if addr ≤ 0x2fff then
      some { p with vram := fun i =>
        if i = p.mirror_vram_addr addr then value else p.vram i }
    else if addr ≤ 0x3eff then none
    else if addr ≤ 0x3fff then
      if addr - 0x3f00 < 32 then
        some { p with palette_table := fun i =>
          if i = addr - 0x3f00 then value else p.palette_table i }
      else none
    else none
  p1.map NesPPU.increment_vram_addr

/-- NesPPU::read_data: the address is read, the latch is incremented
first, then the old address selects the arm; chr-rom and vram reads go
through the one-byte buffer, palette reads return directly; the
0x3000-0x3eff arm and addresses above 0x3fff panic, modelled as none;
the palette arm indexes the 32-byte palette_table array at
addr - 0x3f00, so any addr at 0x3f20 or above panics out of bounds
(none). -/
def NesPPU.read_data (p : NesPPU) : Option (Nat × NesPPU) :=
  let addr := p.addr.read
  let p1 := p.increment_vram_addr
  if addr ≤ 0x1fff then
    match p1.chr_rom.get? addr with
    | some b => some (p1.read_data_buf, { p1 with read_data_buf := b })
    | none => none
  else if addr ≤ 0x2fff then
    some (p1.read_data_buf,
      { p1 with read_data_buf := p1.vram (p1.mirror_vram_addr addr) })
  else if addr ≤ 0x3eff then none
  else if addr ≤ 0x3fff then
    if addr - 0x3f00 < 32 then some (p1.palette_table (addr - 0x3f00), p1)
    else none
  else none

def NesPPU.has_sprite_hit (p : NesPPU) (cycle : Nat) : Bool :=
  (p.oam_data 0 == p.line) && (decide (p.oam_data 3 ≤ cycle)) && p.mask.show_sprites

/-- NesPPU::tick: returns the frame-ready flag and the new state. -/
def NesPPU.tick (p : NesPPU) (cycles : Nat) : Bool × NesPPU :=
  let p := { p with cycles := p.cycles + cycles }
  if 341 ≤ p.cycles then
    let p := if p.has_sprite_hit p.cycles
      then { p with status := p.status.set_sprite_zero_hit true } else p
    let p := { p with cycles := p.cycles - 341, line := p.line + 1 }
    let p := if p.line = 241 then
        { p with
          status := (p.status.set_vblank_status true).set_sprite_zero_hit false
          nmi_interrupt :=
            if p.ctrl.generate_vblank_nmi then some 1 else p.nmi_interrupt }
      else p
    if 262 ≤ p.line then
      (true,
        { p with
          line := 0
          nmi_interrupt := none
          status := (p.status.set_sprite_zero_hit false).reset_vblank_status })
    else (false, p)
  else (false, p)

/-! ## Address latch arithmetic -/

theorem Addr.read_eq (a : Addr) (hlo : a.lo < 256) : a.read = a.hi * 256 + a.lo :=
  shiftLeft8_or_eq a.hi a.lo hlo

theorem and_ff_eq_mod (x : Nat) : x &&& 0xff = x % 256 := by
  rw [show (0xff : Nat) = 2 ^ 8 - 1 by norm_num, Nat.and_pow_two_sub_one_eq_mod]

theorem and_3fff_eq_mod (x : Nat) : x &&& 0x3fff = x % 0x4000 := by
  rw [show (0x3fff : Nat) = 2 ^ 14 - 1 by norm_num, Nat.and_pow_two_sub_one_eq_mod]

theorem Addr.read_set (a : Addr) (m : Nat) : (a.set m).read = m := by
  show (m >>> 8) <<< 8 ||| (m &&& 0xff) = m
  rw [and_ff_eq_mod, shiftLeft8_or_eq _ _ (Nat.mod_lt _ (by norm_num)),
    Nat.shiftRight_eq_div_pow, show (2 : Nat) ^ 8 = 256 by norm_num]
  omega

theorem Addr.increment_read (a : Addr) (inc : Nat) (hlo : a.lo < 256) (hinc : inc ≤ 255)
    (hbound : a.read + inc < 65536) :
    (a.increment inc).read = a.read + inc := by
  have hread := Addr.read_eq a hlo
  rw [hread] at hbound
  unfold Addr.increment
  rw [Addr.read_eq _ (Nat.mod_lt _ (by omega)), hread]
  dsimp only
  split_ifs with h <;> omega

theorem ControlRegister.vram_addr_increment_le (c : ControlRegister) :
    1 ≤ c.vram_addr_increment ∧ c.vram_addr_increment ≤ 32 := by
  unfold ControlRegister.vram_addr_increment
  split_ifs <;> omega

theorem NesPPU.increment_vram_addr_read_mod (p : NesPPU) (hlo : p.addr.lo < 256)
    (hV : p.addr.read ≤ 0x3fff) :
    p.increment_vram_addr.addr.read =
      (p.addr.read + p.ctrl.vram_addr_increment) % 0x4000 := by
  obtain ⟨hi1, hi2⟩ := p.ctrl.vram_addr_increment_le
  have h1 := Addr.increment_read p.addr p.ctrl.vram_addr_increment hlo (by omega) (by omega)
  unfold NesPPU.increment_vram_addr
  dsimp only
  split_ifs with h
  · rw [Addr.read_set, h1, and_3fff_eq_mod]
  · rw [h1] at h ⊢
    omega

theorem NesPPU.increment_vram_addr_lo (p : NesPPU) :
    p.increment_vram_addr.addr.lo < 256 := by
  unfold NesPPU.increment_vram_addr
  dsimp only
  split_ifs with h
  · unfold Addr.set
    dsimp only
    rw [and_ff_eq_mod]
    omega
  · unfold Addr.increment
    dsimp only
    omega

theorem NesPPU.increment_vram_addr_vram (p : NesPPU) :
    p.increment_vram_addr.vram = p.vram := by
  unfold NesPPU.increment_vram_addr
  dsimp only
  split_ifs <;> rfl

theorem NesPPU.increment_vram_addr_chr (p : NesPPU) :
    p.increment_vram_addr.chr_rom = p.chr_rom := by
  unfold NesPPU.increment_vram_addr
  dsimp only
  split_ifs <;> rfl

theorem NesPPU.increment_vram_addr_palette (p : NesPPU) :
    p.increment_vram_addr.palette_table = p.palette_table := by
  unfold NesPPU.increment_vram_addr
  dsimp only
  split_ifs <;> rfl

theorem NesPPU.increment_vram_addr_buf (p : NesPPU) :
    p.increment_vram_addr.read_data_buf = p.read_data_buf := by
  unfold NesPPU.increment_vram_addr
  dsimp only
  split_ifs <;> rfl

theorem NesPPU.increment_vram_addr_ctrl (p : NesPPU) :
    p.increment_vram_addr.ctrl = p.ctrl := by
  unfold NesPPU.increment_vram_addr
  dsimp only
  split_ifs <;> rfl

theorem NesPPU.increment_vram_addr_mirroring (p : NesPPU) :
    p.increment_vram_addr.mirroring = p.mirroring := by
  unfold NesPPU.increment_vram_addr
  dsimp only
  split_ifs <;> rfl

theorem NesPPU.mirror_vram_addr_congr (p q : NesPPU) (h : p.mirroring = q.mirroring)
    (addr : Nat) : p.mirror_vram_addr addr = q.mirror_vram_addr addr := by
  unfold NesPPU.mirror_vram_addr
  rw [h]

/-- C8: the address latch reads back at most 0x3FFF after any $2006
write (write_to_ppu_addr, in particular the second write of a pair)
and after any $2007-induced increment (increment_vram_addr): both mask
the latch down whenever it exceeds 0x3FFF. -/
theorem c8_vram_addr_bounded :
    (∀ (p : NesPPU) (d : Nat), (p.write_to_ppu_addr d).addr.read ≤ 0x3fff) ∧
    (∀ p : NesPPU, p.increment_vram_addr.addr.read ≤ 0x3fff) := by
  constructor
  · intro p d
    unfold NesPPU.write_to_ppu_addr
    dsimp only
    split_ifs with h <;> dsimp only
    · rw [Addr.read_set, and_3fff_eq_mod]
      omega
    · omega
  · intro p
    unfold NesPPU.increment_vram_addr
    dsimp only
    split_ifs with h <;> dsimp only
    · rw [Addr.read_set, and_3fff_eq_mod]
      omega
    · omega

/-! ## C10: NesPPU::new ignores the mirroring argument -/

/-- The horizontal name-table mapping as the spec words it: logical
tables (0,1,2,3) map to physical banks (0,0,1,1); the result is the
physical bank base plus the offset inside the table. -/
def specHorizontalMirror (addr : Nat) : Nat :=
  let i := (addr &&& 0x2FFF) - 0x2000
  let t := i / 0x400
  (if t ≤ 1 then 0 else 1) * 0x400 + i % 0x400

/-- C10: NesPPU::new hardcodes Mirroring::HORIZONTAL, so the built
state does not depend on the mirroring argument, and mirror_vram_addr
on such a PPU applies the horizontal (0,0,1,1) mapping on the
name-table range. -/
theorem c10_new_ignores_mirroring (chr : List Nat) (m m' : Mirroring) (a : Nat) :
    (NesPPU.new chr m).mirroring = Mirroring.HORIZONTAL ∧
    NesPPU.new chr m = NesPPU.new chr m' ∧
    (0x2000 ≤ a → a ≤ 0x3eff →
      (NesPPU.new chr m).mirror_vram_addr a = specHorizontalMirror a) := by
  refine ⟨rfl, rfl, fun h1 h2 => ?_⟩
  unfold NesPPU.mirror_vram_addr specHorizontalMirror
  dsimp only [NesPPU.new]
  have hle : a &&& 0x2FFF ≤ 0x2FFF := Nat.and_le_right
  split_ifs <;> omega

/-- Witness for C10 at chr = [], mirroring = VERTICAL, a = 0x2C05
(logical table 3, which horizontal mirroring folds onto bank 1). -/
theorem c10_new_ignores_mirroring_witness :
    (NesPPU.new [] Mirroring.VERTICAL).mirroring = Mirroring.HORIZONTAL ∧
    (NesPPU.new [] Mirroring.VERTICAL).mirror_vram_addr 0x2C05 = specHorizontalMirror 0x2C05 ∧
    specHorizontalMirror 0x2C05 = 0x405 := by
  obtain ⟨h1, _, h3⟩ :=
    c10_new_ignores_mirroring [] Mirroring.VERTICAL Mirroring.HORIZONTAL 0x2C05
  exact ⟨h1, h3 (by norm_num) (by norm_num), by decide⟩

/-! ## Arm descriptions of the $2007 data port -/

theorem NesPPU.read_data_vram (p : NesPPU)
    (h1 : 0x2000 ≤ p.addr.read) (h2 : p.addr.read ≤ 0x2fff) :
    p.read_data = some (p.increment_vram_addr.read_data_buf,
      { p.increment_vram_addr with
        read_data_buf :=
          p.increment_vram_addr.vram (p.increment_vram_addr.mirror_vram_addr p.addr.read) }) := by
  unfold NesPPU.read_data
  dsimp only
  rw [if_neg (by omega), if_pos (by omega)]

theorem NesPPU.read_data_palette (p : NesPPU)
    (h1 : 0x3f00 ≤ p.addr.read) (h2 : p.addr.read ≤ 0x3f1f) :
    p.read_data = some
      (p.increment_vram_addr.palette_table (p.addr.read - 0x3f00),
        p.increment_vram_addr) := by
  unfold NesPPU.read_data
  dsimp only
  rw [if_neg (by omega), if_neg (by omega), if_neg (by omega), if_pos (by omega),
    if_pos (by omega)]

theorem NesPPU.write_to_data_vram (p : NesPPU) (v : Nat)
    (h1 : 0x2000 ≤ p.addr.read) (h2 : p.addr.read ≤ 0x2fff) :
    p.write_to_data v = some (NesPPU.increment_vram_addr
      { p with vram := fun i =>
          if i = p.mirror_vram_addr p.addr.read then v else p.vram i }) := by
  unfold NesPPU.write_to_data
  dsimp only
  rw [if_neg (by omega), if_pos (by omega)]
  rfl

/-- C3 (amended): with the address latch V in the non-palette VRAM
range, two consecutive $2007 reads at auto-incrementing addresses
return first the pre-existing read-buffer byte and second the VRAM
byte at the first address; with V in the in-bounds palette range
$3F00-$3F1F a read returns the palette byte immediately (at
$3F20-$3FFF the 32-byte palette_table is indexed out of bounds and the
read panics, c3_counterexample_palette_panic); and each modelled
access (vram-range read, palette read, vram-range write) increments V
by the CTRL-selected step, mirrored into the 14-bit range. -/
theorem c3_data_port_buffering (p q w : NesPPU) (v : Nat)
    (hplo : p.addr.lo < 256)
    (hp1 : 0x2000 ≤ p.addr.read)
    (hp2 : p.addr.read + p.ctrl.vram_addr_increment ≤ 0x2fff)
    (hqlo : q.addr.lo < 256)
    (hq1 : 0x3f00 ≤ q.addr.read) (hq2 : q.addr.read ≤ 0x3f1f)
    (hwlo : w.addr.lo < 256)
    (hw1 : 0x2000 ≤ w.addr.read) (hw2 : w.addr.read ≤ 0x2fff) :
    (p.read_data.map Prod.fst = some p.read_data_buf) ∧
    (p.read_data.bind (fun t => t.2.read_data.map Prod.fst) =
      some (p.vram (p.mirror_vram_addr p.addr.read))) ∧
    (p.read_data.map (fun t => t.2.addr.read) =
      some (p.addr.read + p.ctrl.vram_addr_increment)) ∧
    (q.read_data.map Prod.fst = some (q.palette_table (q.addr.read - 0x3f00))) ∧
    (q.read_data.map (fun t => t.2.addr.read) =
      some ((q.addr.read + q.ctrl.vram_addr_increment) % 0x4000)) ∧
    ((w.write_to_data v).map (fun t => t.addr.read) =
      some ((w.addr.read + w.ctrl.vram_addr_increment) % 0x4000)) := by
  obtain ⟨hpi1, hpi2⟩ := p.ctrl.vram_addr_increment_le
  have hpVread : p.increment_vram_addr.addr.read =
      p.addr.read + p.ctrl.vram_addr_increment := by
    rw [NesPPU.increment_vram_addr_read_mod p hplo (by omega)]
    exact Nat.mod_eq_of_lt (by omega)
  set buf1 := p.increment_vram_addr.vram
    (p.increment_vram_addr.mirror_vram_addr p.addr.read) with hbuf1
  set q1 : NesPPU := { p.increment_vram_addr with read_data_buf := buf1 } with hq1def
  have hpread : p.read_data = some (p.increment_vram_addr.read_data_buf, q1) :=
    NesPPU.read_data_vram p (by omega) (by omega)
  have hq1V : q1.addr.read = p.addr.read + p.ctrl.vram_addr_increment := hpVread
  have hqread := NesPPU.read_data_palette q hq1 hq2
  refine ⟨?_, ?_, ?_, ?_, ?_, ?_⟩
  · rw [hpread]
    exact congrArg some (NesPPU.increment_vram_addr_buf p)
  · rw [hpread]
    show q1.read_data.map Prod.fst = _
    rw [NesPPU.read_data_vram q1 (by omega) (by omega)]
    refine congrArg some ?_
    rw [NesPPU.increment_vram_addr_buf q1]
    show buf1 = _
    rw [hbuf1, NesPPU.increment_vram_addr_vram,
      NesPPU.mirror_vram_addr_congr p.increment_vram_addr p
        (NesPPU.increment_vram_addr_mirroring p)]
  · rw [hpread]
    exact congrArg some hq1V
  · rw [hqread]
    exact congrArg some
      (congrArg (fun f => f (q.addr.read - 0x3f00))
        (NesPPU.increment_vram_addr_palette q))
  · rw [hqread]
    exact congrArg some (NesPPU.increment_vram_addr_read_mod q hqlo (by omega))
  · rw [NesPPU.write_to_data_vram w v (by omega) (by omega)]
    exact congrArg some (NesPPU.increment_vram_addr_read_mod
      { w with vram := fun i =>
          if i = w.mirror_vram_addr w.addr.read then v else w.vram i }
      hwlo (by show w.addr.read ≤ 0x3fff; omega))

/-- C3 counterexample: the latch value 0x3f20 lies in the palette
range $3F00-$3FFF of the original claim, yet a $2007 read (and
likewise a write) indexes the 32-byte palette_table at
0x3f20 - 0x3f00 = 32, out of bounds, and panics instead of returning
the palette byte. -/
theorem c3_counterexample_palette_panic :
    ({ NesPPU.new [] Mirroring.HORIZONTAL with
       addr := { hi := 0x3f, lo := 0x20, hi_ptr := true } } : NesPPU).read_data = none ∧
    ({ NesPPU.new [] Mirroring.HORIZONTAL with
       addr := { hi := 0x3f, lo := 0x20, hi_ptr := true } } : NesPPU).write_to_data 0 =
      none ∧
    0x3f00 ≤ (0x3f20 : Nat) ∧ (0x3f20 : Nat) ≤ 0x3fff :=
  ⟨rfl, rfl, by decide, by decide⟩

/-! ## C4: tick, VBlank entry and frame wrap -/

theorem flagSet_true (f m : Nat) : flagSet f m true = flagInsert f m := rfl

theorem flagSet_false (f m : Nat) : flagSet f m false = flagRemove f m := rfl

theorem status_vblank_set_bit7 (s : StatusRegister) :
    ((s.set_vblank_status true).set_sprite_zero_hit false).bits.testBit 7 = true := by
  unfold StatusRegister.set_vblank_status StatusRegister.set_sprite_zero_hit
  dsimp only
  rw [flagSet_true, flagSet_false, testBit_flagRemove _ _ 7 (by omega), testBit_flagInsert]
  rw [show Nat.testBit 0b10000000 7 = true by decide,
    show Nat.testBit 0b01000000 7 = false by decide]
  simp

theorem status_vblank_set_bit6 (s : StatusRegister) :
    ((s.set_vblank_status true).set_sprite_zero_hit false).bits.testBit 6 = false := by
  unfold StatusRegister.set_vblank_status StatusRegister.set_sprite_zero_hit
  dsimp only
  rw [flagSet_true, flagSet_false, testBit_flagRemove _ _ 6 (by omega)]
  rw [show Nat.testBit 0b01000000 6 = true by decide]
  simp

theorem status_wrap_bit7 (s : StatusRegister) :
    ((s.set_sprite_zero_hit false).reset_vblank_status).bits.testBit 7 = false := by
  unfold StatusRegister.set_sprite_zero_hit StatusRegister.reset_vblank_status
  dsimp only
  rw [flagSet_false, testBit_flagRemove _ _ 7 (by omega)]
  rw [show Nat.testBit 0b10000000 7 = true by decide]
  simp

theorem status_wrap_bit6 (s : StatusRegister) :
    ((s.set_sprite_zero_hit false).reset_vblank_status).bits.testBit 6 = false := by
  unfold StatusRegister.set_sprite_zero_hit StatusRegister.reset_vblank_status
  dsimp only
  rw [flagSet_false, testBit_flagRemove _ _ 6 (by omega),
    testBit_flagRemove _ _ 6 (by omega)]
  rw [show Nat.testBit 0b01000000 6 = true by decide]
  simp

/-- C4: when a tick call rolls the scanline counter into line 241, the
resulting status has the VBlank bit set and sprite-0 hit clear, an NMI
is latched exactly when CTRL bit 7 is set, and the call returns false;
when a call advances past the last scanline it wraps the counter to 0,
clears VBlank and sprite-0 hit, drops the NMI latch, and returns true;
and a call returns true exactly when it advances past the last
scanline. -/
theorem c4_tick_vblank_and_wrap (p : NesPPU) (c : Nat) :
    ((341 ≤ p.cycles + c ∧ p.line + 1 = 241) →
      ((p.tick c).2.status.bits.testBit 7 = true ∧
       (p.tick c).2.status.bits.testBit 6 = false ∧
       (p.tick c).2.nmi_interrupt =
         (if p.ctrl.generate_vblank_nmi then some 1 else p.nmi_interrupt) ∧
       (p.tick c).1 = false)) ∧
    ((341 ≤ p.cycles + c ∧ 262 ≤ p.line + 1) →
      ((p.tick c).2.line = 0 ∧
       (p.tick c).2.status.bits.testBit 7 = false ∧
       (p.tick c).2.status.bits.testBit 6 = false ∧
       (p.tick c).2.nmi_interrupt = none ∧
       (p.tick c).1 = true)) ∧
    ((p.tick c).1 = true ↔ (341 ≤ p.cycles + c ∧ 262 ≤ p.line + 1)) := by
  unfold NesPPU.tick
  dsimp only
  by_cases h341 : 341 ≤ p.cycles + c
  · rw [if_pos h341]
    by_cases hs : ({ p with cycles := p.cycles + c } : NesPPU).has_sprite_hit
        (p.cycles + c) = true
    all_goals first
    | rw [if_pos hs]
    | rw [if_neg hs]
    all_goals dsimp only
    all_goals (
      by_cases h241 : p.line + 1 = 241
      · rw [if_pos h241]
        dsimp only
        rw [if_neg (show ¬ 262 ≤ p.line + 1 by omega)]
        exact ⟨fun _ => ⟨status_vblank_set_bit7 _, status_vblank_set_bit6 _, rfl, rfl⟩,
          fun h => absurd h.2 (by omega),
          by simp only [Bool.false_eq_true, false_iff]; omega⟩
      · rw [if_neg h241]
        dsimp only
        by_cases h262 : 262 ≤ p.line + 1
        · rw [if_pos h262]
          exact ⟨fun h => absurd h.2 h241,
            fun _ => ⟨rfl, status_wrap_bit7 _, status_wrap_bit6 _, rfl, rfl⟩,
            by simp [h341, h262]⟩
        · rw [if_neg h262]
          exact ⟨fun h => absurd h.2 h241, fun h => absurd h.2 h262,
            by simp only [Bool.false_eq_true, false_iff]; omega⟩)
  · rw [if_neg h341]
    refine ⟨fun h => absurd h.1 h341, fun h => absurd h.1 h341, ?_⟩
    simp only [Bool.false_eq_true, false_iff]
    omega

/-- Witness for C3: a PPU with the latch at 0x2305 and buffer 0x42
returns the buffer on a read, and a PPU with the latch at 0x3f01
advances the latch to 0x3f02 on a palette read. -/
theorem c3_data_port_buffering_witness :
    ({ NesPPU.new [] Mirroring.HORIZONTAL with
       addr := { hi := 0x23, lo := 0x05, hi_ptr := true },
       read_data_buf := 0x42 } : NesPPU).read_data.map Prod.fst = some 0x42 ∧
    ({ NesPPU.new [] Mirroring.HORIZONTAL with
       addr := { hi := 0x3f, lo := 0x01, hi_ptr := true } } : NesPPU).read_data.map
      (fun t => t.2.addr.read) = some 0x3f02 := by
  have h := c3_data_port_buffering
    { NesPPU.new [] Mirroring.HORIZONTAL with
      addr := { hi := 0x23, lo := 0x05, hi_ptr := true },
      read_data_buf := 0x42 }
    { NesPPU.new [] Mirroring.HORIZONTAL with
      addr := { hi := 0x3f, lo := 0x01, hi_ptr := true } }
    { NesPPU.new [] Mirroring.HORIZONTAL with
      addr := { hi := 0x23, lo := 0x05, hi_ptr := true },
      read_data_buf := 0x42 }
    0
    (by decide) (by decide) (by decide) (by decide) (by decide) (by decide)
    (by decide) (by decide) (by decide)
  exact ⟨h.1, h.2.2.2.2.1⟩

/-- Witness for C4: entering scanline 241 sets the VBlank bit, and
wrapping past scanline 261 reports a ready frame. -/
theorem c4_tick_vblank_and_wrap_witness :
    (({ NesPPU.new [] Mirroring.HORIZONTAL with
        line := 240, cycles := 340 } : NesPPU).tick 1).2.status.bits.testBit 7 = true ∧
    (({ NesPPU.new [] Mirroring.HORIZONTAL with
        line := 261, cycles := 340 } : NesPPU).tick 1).1 = true := by
  obtain ⟨h1, _, _⟩ := c4_tick_vblank_and_wrap
    { NesPPU.new [] Mirroring.HORIZONTAL with line := 240, cycles := 340 } 1
  obtain ⟨_, h2, _⟩ := c4_tick_vblank_and_wrap
    { NesPPU.new [] Mirroring.HORIZONTAL with line := 261, cycles := 340 } 1
  exact ⟨(h1 ⟨by decide, by decide⟩).1, (h2 ⟨by decide, by decide⟩).2.2.2.2⟩

/-! ## Bus RAM mirroring (src/bus/bus.rs) -/

def RAM_MIRRORS : Nat := 0x0800
def RAM_MIRRORS_END : Nat := 0x1FFF
def IO_MIRRORS : Nat := 0x2008
def IO_MIRRORS_END : Nat := 0x3FFF

/-- fn map_mirrors: the two range-pattern arms of the match, then the
identity fallthrough. -/
def map_mirrors (pos : Nat) : Nat :=
  if RAM_MIRRORS ≤ pos ∧ pos ≤ RAM_MIRRORS_END then pos &&& 0b11111111111
  else if IO_MIRRORS ≤ pos ∧ pos ≤ IO_MIRRORS_END then pos &&& 0b10000000000111
  else pos

/-- The Bus state restricted to its 2 KiB work RAM. The other Bus
fields (rom, ppu, joypads, cycle counter) are not touched by the RAM
arms of Bus::read and Bus::write modelled below. -/
structure Bus where
  ram : Nat → Nat

/-- The 0x00..=RAM_MIRRORS_END arm of Bus::write: store data at the
mirrored index. Addresses above the RAM window route to PPU registers,
APU, joypads, OAM DMA or panic; they never reach ram and are outside
this model (none). -/
def Bus.write (b : Bus) (pos data : Nat) : Option Bus :=
  if pos ≤ RAM_MIRRORS_END then
    some { ram := fun i => if i = map_mirrors pos then data else b.ram i }
  else none

/-- The 0x0..=RAM_MIRRORS_END arm of Bus::read: load from the mirrored
index; other addresses are outside this model (none). -/
def Bus.read (b : Bus) (pos : Nat) : Option Nat :=
  if pos ≤ RAM_MIRRORS_END then some (b.ram (map_mirrors pos)) else none

theorem map_mirrors_eq_mod (pos : Nat) (h : pos ≤ 0x1FFF) :
    map_mirrors pos = pos % 0x800 := by
  unfold map_mirrors RAM_MIRRORS RAM_MIRRORS_END IO_MIRRORS IO_MIRRORS_END
  rw [show (0b11111111111 : Nat) = 2 ^ 11 - 1 by norm_num]
  split_ifs with h1 h2
  · rw [Nat.and_pow_two_sub_one_eq_mod]
  · omega
  · omega

/-- C2: for every address in 0x0000..0x1FFF, a Bus write stores the
byte at RAM[addr mod 0x800] and a Bus read returns RAM[addr mod 0x800],
so any two of the four mirrors of a cell observe each other. -/
theorem c2_ram_mirroring (b : Bus) (addr v addr' : Nat)
    (h : addr ≤ 0x1FFF) (h' : addr' ≤ 0x1FFF)
    (hm : addr' % 0x800 = addr % 0x800) :
    map_mirrors addr = addr % 0x800 ∧
    b.write addr v =
      some { ram := fun i => if i = addr % 0x800 then v else b.ram i } ∧
    b.read addr = some (b.ram (addr % 0x800)) ∧
    (b.write addr v).bind (fun b2 => b2.read addr') = some v := by
  have hmap := map_mirrors_eq_mod addr h
  have hmap' := map_mirrors_eq_mod addr' h'
  have hw : b.write addr v =
      some { ram := fun i => if i = addr % 0x800 then v else b.ram i } := by
    unfold Bus.write
    rw [if_pos (by unfold RAM_MIRRORS_END; omega), hmap]
  refine ⟨hmap, hw, ?_, ?_⟩
  · unfold Bus.read
    rw [if_pos (by unfold RAM_MIRRORS_END; omega), hmap]
  · rw [hw]
    show Bus.read _ addr' = some v
    unfold Bus.read
    rw [if_pos (by unfold RAM_MIRRORS_END; omega), hmap']
    dsimp only
    rw [if_pos hm]

/-- Witness for C2: writing 0x55 through the mirror 0x1805 is observed
at 0x0005. -/
theorem c2_ram_mirroring_witness :
    (0x1805 : Nat) ≤ 0x1FFF ∧ (0x5 : Nat) % 0x800 = 0x1805 % 0x800 ∧
    ((Bus.write { ram := fun _ => 0 } 0x1805 0x55).bind
      (fun b2 => b2.read 0x5)) = some 0x55 :=
  ⟨by decide, by decide,
    (c2_ram_mirroring { ram := fun _ => 0 } 0x1805 0x55 0x5
      (by decide) (by decide) (by decide)).2.2.2⟩

/-! ## CPU zero-page indexed addressing (src/cpu/mem.rs) -/

/-- The CPU state consumed by AddressingMode operand resolution: memory
as seen through mem_read, the program counter and the index registers. -/
structure CpuMem where
  mem : Nat → Nat
  program_counter : Nat
  register_x : Nat
  register_y : Nat

def ZERO_PAGE : Nat := 0x0

/-- The address AddressingMode::read_u8 reads in ZeroPage_X mode:
ZERO_PAGE + pos as u16 + register_x as u16 - a u16 sum of two bytes,
which cannot exceed 0x1FE and is not reduced mod 0x100. -/
def zeroPageXReadAddr (cpu : CpuMem) : Nat :=
  ZERO_PAGE + cpu.mem cpu.program_counter + cpu.register_x

def zeroPageYReadAddr (cpu : CpuMem) : Nat :=
  ZERO_PAGE + cpu.mem cpu.program_counter + cpu.register_y

/-- The address AddressingMode::write_u8 writes in ZeroPage_X mode:
(pos + register_x) as u16, where pos + register_x is a u8 addition that
wraps mod 256 (release-build semantics). -/
def zeroPageXWriteAddr (cpu : CpuMem) : Nat :=
  (cpu.mem cpu.program_counter + cpu.register_x) % 256

def zeroPageYWriteAddr (cpu : CpuMem) : Nat :=
  (cpu.mem cpu.program_counter + cpu.register_y) % 256

/-- C6 (code bug): with operand byte 0xFF at PC and X = 1, the
ZeroPage,X read path accesses 0x0100 - outside page 0 - while the
claimed wrapped address is (0xFF + 1) mod 0x100 = 0, which is what the
matching write path computes. -/
theorem c6_zero_page_x_read_does_not_wrap :
    zeroPageXReadAddr
      { mem := fun a => if a = 0 then 0xFF else 0,
        program_counter := 0, register_x := 1, register_y := 0 } = 0x100 ∧
    (0xFF + 1) % 0x100 = 0 ∧
    zeroPageXWriteAddr
      { mem := fun a => if a = 0 then 0xFF else 0,
        program_counter := 0, register_x := 1, register_y := 0 } = 0 ∧
    zeroPageYReadAddr
      { mem := fun a => if a = 0 then 0xFF else 0,
        program_counter := 0, register_x := 0, register_y := 1 } = 0x100 ∧
    (0x100 : Nat) ≠ (0xFF + 1) % 0x100 := by
  decide

/-! ## iNES ROM loading (src/nes/ines.rs, via nom combinators) -/

/-- The nom error classes Rom::load distinguishes: Err::Error,
Err::Failure with ErrorKind::OneOf (the NES 2.0 rejection), any other
Err::Failure, and Err::Incomplete. -/
inductive NomErr
  | error
  | failureOneOf
  | failureOther
  | incomplete
deriving DecidableEq

def MAGIC : List Nat := [0x4E, 0x45, 0x53, 0x1A]

/-- nom bytes::complete::tag(MAGIC): consume the four magic bytes;
mismatching or insufficient input yields Err::Error. -/
def tagMagic (input : List Nat) : Except NomErr (List Nat) :=
  if input.take 4 = MAGIC then Except.ok (input.drop 4)
  else Except.error NomErr.error

/-- nom number::complete::be_u8: one byte; Err::Error when empty. -/
def be_u8 (input : List Nat) : Except NomErr (List Nat × Nat) :=
  match input with
  | [] => Except.error NomErr.error
  | b :: rest => Except.ok (rest, b)

/-- The streaming take! macro: n bytes, Err::Incomplete when fewer
remain. -/
def takeBytes (n : Nat) (input : List Nat) : Except NomErr (List Nat × List Nat) :=
  if n ≤ input.length then Except.ok (input.drop n, input.take n)
  else Except.error NomErr.incomplete

inductive TVFormat
  | PAL
  | NTSC
deriving DecidableEq

def PRG_ROM_PAGE_SIZE : Nat := 16384
def CHR_ROM_PAGE_SIZE : Nat := 8192
def PRG_RAM_PAGE_SIZE : Nat := 8192

/-- RomFlags::TRAINER bit. -/
def TRAINER_FLAG : Nat := 0b00000100

structure Rom where
  trainer : Option (List Nat)
  prg_rom : List Nat
  chr_rom : List Nat
  mapper : Nat
  tv_format : TVFormat
  ram_size : Nat
  rom_flags : Nat
deriving DecidableEq

/-- Rom::_load: the header parse chain. RomFlags::from_bits on the low
four bits cannot fail, so the unwrap is dropped; the NES 2.0 signature
check fails with ErrorKind::OneOf; the mapper id is assembled from the
two nibbles and never validated. -/
def Rom._load (input : List Nat) : Except NomErr (List Nat × Rom) := do
  let input ← tagMagic input
  let (input, len_prg_rom) ← be_u8 input
  let (input, len_chr_rom) ← be_u8 input
  let (input, byte6) ← be_u8 input
  let rom_flags := 0b000001111 &&& byte6
  let (input, byte7) ← be_u8 input
  let _ ← (if byte7 &&& 0x0C = 0x08
           then Except.error NomErr.failureOneOf
           else Except.ok () : Except NomErr Unit)
  let mapper := byte7 &&& 0b11110000 ||| (byte6 >>> 4)
  let (input, len_ram_banks) ← be_u8 input
  let (input, byte9) ← be_u8 input
  let pal := byte9 &&& 1
  let (input, _) ← takeBytes 6 input
  let (input, trainer) ←
    (if rom_flags &&& TRAINER_FLAG = TRAINER_FLAG then
      match takeBytes 512 input with
      | Except.ok (rest, t) => Except.ok (rest, some t)
      | Except.error e => Except.error e
    else Except.ok (input, none) :
      Except NomErr (List Nat × Option (List Nat)))
  let (input, prg_rom) ← takeBytes (PRG_ROM_PAGE_SIZE * len_prg_rom) input
  let (input, chr_rom) ← takeBytes (CHR_ROM_PAGE_SIZE * len_chr_rom) input
  Except.ok (input,
    { trainer := trainer
      prg_rom := prg_rom
      chr_rom := chr_rom
      mapper := mapper
      tv_format := if pal = 1 then TVFormat.PAL else TVFormat.NTSC
      ram_size := PRG_RAM_PAGE_SIZE * len_ram_banks
      rom_flags := rom_flags })

/-- Rom::load: map the nom error classes onto the message strings. -/
def Rom.load (input : List Nat) : Except String Rom :=
  match Rom._load input with
  | Except.ok (_, rom) => Except.ok rom
  | Except.error NomErr.error => Except.error "failed to read file"
  | Except.error NomErr.failureOneOf => Except.error "NES2.0 format is not supported"
  | Except.error NomErr.failureOther => Except.error "failed to read file"
  | Except.error NomErr.incomplete => Except.error "Unexpected end of file"

/-- Whether Rom::load surfaces an error. -/
def loadFails (input : List Nat) : Bool :=
  match Rom.load input with
  | Except.ok _ => false
  | Except.error _ => true

/-- C7 counterexample: a 16-byte header with magic intact, no NES 2.0
signature and mapper nibble 3 loads successfully - the decoded mapper
identifier is never validated, so a non-zero (unsupported) mapper does
not make the load fail. -/
theorem c7_counterexample_mapper3_loads :
    Rom.load [0x4E, 0x45, 0x53, 0x1A, 0, 0, 0x31, 0, 0, 0, 0, 0, 0, 0, 0, 0] =
      Except.ok
        { trainer := none
          prg_rom := []
          chr_rom := []
          mapper := 3
          tv_format := TVFormat.NTSC
          ram_size := 0
          rom_flags := 1 } ∧
    (3 : Nat) ≠ 0 :=
  ⟨rfl, by decide⟩

theorem exceptBind_ok_inv {α β : Type} (x : Except NomErr α)
    (f : α → Except NomErr β) (b : β) (h : x >>= f = Except.ok b) :
    ∃ a, x = Except.ok a ∧ f a = Except.ok b := by
  cases x with
  | error e => exact absurd h (by simp [Bind.bind, Except.bind])
  | ok a => exact ⟨a, rfl, by simpa [Bind.bind, Except.bind] using h⟩

theorem tagMagic_ok (bs l : List Nat) (h : tagMagic bs = Except.ok l) :
    l = bs.drop 4 ∧ bs.take 4 = MAGIC := by
  unfold tagMagic at h
  split at h
  · cases h
    exact ⟨rfl, by assumption⟩
  · cases h

theorem be_u8_ok (l rest : List Nat) (b : Nat)
    (h : be_u8 l = Except.ok (rest, b)) : l = b :: rest := by
  unfold be_u8 at h
  match l, h with
  | b' :: r', h => cases h; rfl

theorem takeBytes_ok (n : Nat) (l rest t : List Nat)
    (h : takeBytes n l = Except.ok (rest, t)) :
    n ≤ l.length ∧ rest = l.drop n := by
  unfold takeBytes at h
  split at h
  · cases h
    exact ⟨by assumption, rfl⟩
  · cases h

theorem drop_cons_getD (l : List Nat) (n b : Nat) (t : List Nat)
    (h : l.drop n = b :: t) : l.getD n 0 = b ∧ l.drop (n + 1) = t := by
  constructor
  · have h0 : l[n]? = some b := by
      have e := List.getElem?_drop l n 0
      rw [Nat.add_zero] at e
      rw [← e, h]
      simp
    rw [List.getD_eq_getElem?_getD, h0]
    rfl
  · rw [← List.drop_drop 1 n l, h]
    rfl

/-- The trainer test on the masked flag byte equals the test on the
raw byte 6, since the TRAINER bit lies inside the low nibble. -/
theorem trainer_bit_and (b : Nat) :
    ((0b000001111 &&& b) &&& TRAINER_FLAG = TRAINER_FLAG) ↔
      (b &&& TRAINER_FLAG = TRAINER_FLAG) := by
  unfold TRAINER_FLAG
  rw [Nat.land_assoc]
  rcases Nat.and_two_pow b 2 with _
  have h4 : b &&& 4 = (b.testBit 2).toNat * 4 := Nat.and_two_pow b 2
  cases hb : b.testBit 2 <;> rw [hb] at h4 <;> simp at h4 <;> rw [h4] <;> decide

/-- If Rom::_load succeeds, the input holds the full 16-byte header,
the optional 512-byte trainer and both declared banks. -/
theorem load_ok_length (bs rest : List Nat) (rom : Rom)
    (h : Rom._load bs = Except.ok (rest, rom)) :
    16 + (if bs.getD 6 0 &&& TRAINER_FLAG = TRAINER_FLAG then 512 else 0)
      + PRG_ROM_PAGE_SIZE * bs.getD 4 0 + CHR_ROM_PAGE_SIZE * bs.getD 5 0
      ≤ bs.length := by
  unfold Rom._load at h
  obtain ⟨l1, h1, h⟩ := exceptBind_ok_inv _ _ _ h
  obtain ⟨hl1, hmag⟩ := tagMagic_ok _ _ h1
  subst hl1
  have h4le : 4 ≤ bs.length := by
    have := congrArg List.length hmag
    rw [List.length_take] at this
    simp [MAGIC] at this
    omega
  dsimp only at h
  obtain ⟨⟨l2, b4⟩, h2, h⟩ := exceptBind_ok_inv _ _ _ h
  obtain ⟨hg4, hd5⟩ := drop_cons_getD bs 4 b4 l2 (be_u8_ok _ _ _ h2)
  have hd5' : bs.drop 5 = l2 := hd5
  dsimp only at h
  obtain ⟨⟨l3, b5⟩, h3, h⟩ := exceptBind_ok_inv _ _ _ h
  obtain ⟨hg5, hd6⟩ := drop_cons_getD bs 5 b5 l3 (hd5'.trans (be_u8_ok _ _ _ h3))
  have hd6' : bs.drop 6 = l3 := hd6
  dsimp only at h
  obtain ⟨⟨l4, b6⟩, h6, h⟩ := exceptBind_ok_inv _ _ _ h
  obtain ⟨hg6, hd7⟩ := drop_cons_getD bs 6 b6 l4 (hd6'.trans (be_u8_ok _ _ _ h6))
  have hd7' : bs.drop 7 = l4 := hd7
  dsimp only at h
  obtain ⟨⟨l5, b7⟩, h7, h⟩ := exceptBind_ok_inv _ _ _ h
  obtain ⟨hg7, hd8⟩ := drop_cons_getD bs 7 b7 l5 (hd7'.trans (be_u8_ok _ _ _ h7))
  have hd8' : bs.drop 8 = l5 := hd8
  dsimp only at h
  obtain ⟨u, hif, h⟩ := exceptBind_ok_inv _ _ _ h
  obtain ⟨⟨l6, b8⟩, h8, h⟩ := exceptBind_ok_inv _ _ _ h
  obtain ⟨hg8, hd9⟩ := drop_cons_getD bs 8 b8 l6 (hd8'.trans (be_u8_ok _ _ _ h8))
  have hd9' : bs.drop 9 = l6 := hd9
  dsimp only at h
  obtain ⟨⟨l7, b9⟩, h9, h⟩ := exceptBind_ok_inv _ _ _ h
  obtain ⟨hg9, hd10⟩ := drop_cons_getD bs 9 b9 l7 (hd9'.trans (be_u8_ok _ _ _ h9))
  dsimp only at h
  obtain ⟨⟨l8, s6⟩, h10, h⟩ := exceptBind_ok_inv _ _ _ h
  obtain ⟨h6le, hl8⟩ := takeBytes_ok _ _ _ _ h10
  dsimp only at h
  obtain ⟨⟨l9, tr⟩, h11, h⟩ := exceptBind_ok_inv _ _ _ h
  dsimp only at h
  obtain ⟨⟨l10, prg⟩, h12, h⟩ := exceptBind_ok_inv _ _ _ h
  obtain ⟨hprgle, hl10⟩ := takeBytes_ok _ _ _ _ h12
  dsimp only at h
  obtain ⟨⟨l11, chr⟩, h13, h⟩ := exceptBind_ok_inv _ _ _ h
  obtain ⟨hchrle, _⟩ := takeBytes_ok _ _ _ _ h13
  -- lengths of the intermediate tails
  have e7 : l7.length = bs.length - 10 := by
    have e := congrArg List.length hd10
    rw [List.length_drop] at e
    omega
  have e8 : l8.length = bs.length - 16 := by
    rw [hl8, List.length_drop]
    omega
  rw [hg4, hg5, hg6]
  -- split on the trainer flag, resolving the branch taken in h11
  by_cases hc : (0b000001111 &&& b6) &&& TRAINER_FLAG = TRAINER_FLAG
  · rw [if_pos ((trainer_bit_and b6).mp hc)]
    rw [if_pos hc] at h11
    cases h512 : takeBytes 512 l8 with
    | error e =>
      rw [h512] at h11
      dsimp only at h11
      cases h11
    | ok p =>
      obtain ⟨r5, t5⟩ := p
      rw [h512] at h11
      obtain ⟨h512le, hr5⟩ := takeBytes_ok _ _ _ _ h512
      dsimp only at h11
      simp only [Except.ok.injEq, Prod.mk.injEq] at h11
      obtain ⟨h11a, h11b⟩ := h11
      have e9 : l9.length = l8.length - 512 := by
        rw [← h11a, hr5, List.length_drop]
      have e10 : l10.length = l9.length - PRG_ROM_PAGE_SIZE * b4 := by
        rw [hl10, List.length_drop]
      omega
  · rw [if_neg (fun hx => hc ((trainer_bit_and b6).mpr hx))]
    rw [if_neg hc] at h11
    simp only [Except.ok.injEq, Prod.mk.injEq] at h11
    obtain ⟨h11a, h11b⟩ := h11
    have e9 : l9.length = l8.length := by rw [← h11a]
    have e10 : l10.length = l9.length - PRG_ROM_PAGE_SIZE * b4 := by
      rw [hl10, List.length_drop]
    omega

/-- C7 (amended): Rom::load rejects exactly malformed inputs, not
unsupported mappers: a magic mismatch yields the error string for
Err::Error, the NES 2.0 signature in byte 7 yields its dedicated
message, and an input too short for the header, the optional trainer
and the declared PRG/CHR banks fails to load; no condition on the
mapper id appears (c7_counterexample_mapper3_loads). -/
theorem c7_load_rejects (bs : List Nat) :
    (bs.take 4 ≠ MAGIC → Rom.load bs = Except.error "failed to read file") ∧
    (bs.take 4 = MAGIC → 8 ≤ bs.length → bs.getD 7 0 &&& 0x0C = 0x08 →
      Rom.load bs = Except.error "NES2.0 format is not supported") ∧
    (bs.length < 16 + (if bs.getD 6 0 &&& TRAINER_FLAG = TRAINER_FLAG then 512 else 0)
        + PRG_ROM_PAGE_SIZE * bs.getD 4 0 + CHR_ROM_PAGE_SIZE * bs.getD 5 0 →
      loadFails bs = true) := by
  refine ⟨?_, ?_, ?_⟩
  · intro h1
    have hm : tagMagic bs = Except.error NomErr.error := by
      unfold tagMagic
      rw [if_neg h1]
    unfold Rom.load Rom._load
    rw [hm]
    rfl
  · intro hm hlen h7
    rcases bs with _ | ⟨a0, _ | ⟨a1, _ | ⟨a2, _ | ⟨a3, _ | ⟨a4, _ | ⟨a5, _ | ⟨a6, _ | ⟨a7, rest⟩⟩⟩⟩⟩⟩⟩⟩
    all_goals try simp at hlen
    simp only [List.take, MAGIC, List.cons.injEq, and_true] at hm
    obtain ⟨rfl, rfl, rfl, rfl⟩ := hm
    simp only [List.getD_cons_succ, List.getD_cons_zero] at h7
    have hm4 : (0x4E :: 0x45 :: 0x53 :: 0x1A :: a4 :: a5 :: a6 :: a7 :: rest).take 4
        = MAGIC := by simp [MAGIC]
    unfold Rom.load Rom._load tagMagic
    rw [if_pos hm4]
    dsimp only [List.drop, be_u8, Bind.bind, Except.bind]
    rw [if_pos h7]
  · intro hshort
    unfold loadFails Rom.load
    cases hl : Rom._load bs with
    | ok p =>
      obtain ⟨rest, rom⟩ := p
      exfalso
      have hle := load_ok_length bs rest rom hl
      unfold PRG_ROM_PAGE_SIZE CHR_ROM_PAGE_SIZE at hle hshort
      by_cases ht : bs.getD 6 0 &&& TRAINER_FLAG = TRAINER_FLAG
      · rw [if_pos ht] at hle hshort
        omega
      · rw [if_neg ht] at hle hshort
        omega
    | error e =>
      cases e <;> rfl

/-- Witness for c7_load_rejects: a garbage header fails with the read
error, a header carrying the NES 2.0 signature fails with its message,
and a bank-less header that still declares one PRG page fails to load. -/
theorem c7_load_rejects_witness :
    Rom.load [0, 0, 0, 0] = Except.error "failed to read file" ∧
    Rom.load [0x4E, 0x45, 0x53, 0x1A, 0, 0, 0, 0x08] =
      Except.error "NES2.0 format is not supported" ∧
    loadFails [0x4E, 0x45, 0x53, 0x1A, 1, 0, 0, 0, 0, 0, 0, 0, 0, 0, 0, 0] = true :=
  ⟨(c7_load_rejects [0, 0, 0, 0]).1 (by decide),
   (c7_load_rejects [0x4E, 0x45, 0x53, 0x1A, 0, 0, 0, 0x08]).2.1
     (by decide) (by decide) (by decide),
   (c7_load_rejects [0x4E, 0x45, 0x53, 0x1A, 1, 0, 0, 0, 0, 0, 0, 0, 0, 0, 0, 0]).2.2
     (by decide)⟩
